import Mathlib

/- Verification of numpy_quant/tensor.py (tinyquant).

NumPy ndarrays are modelled as a dtype tag plus a shape and a flat row-major
list of rational values: integer entries embed into the rationals, and
float32 arithmetic is idealized as exact rational arithmetic.  Python
exceptions are modelled with the Err type and Except.  The elementwise,
reshaping and broadcasting kernels that tensor.py takes from NumPy (the
external NumericKernelLibrary of the spec) are modelled below for exactly
the cases this code base reaches. -/

deriving instance DecidableEq for Except

/-- NumPy dtypes that occur in the code base. -/
inductive DType
  | float32
  | float64
  | int64
  | int32
  deriving DecidableEq

/-- Model of a NumPy ndarray: a dtype tag, a shape, and flat row-major data. -/
structure NPArr where
  dtype : DType
  shape : List Nat
  data : List ℚ
  deriving DecidableEq

/-- Python exceptions raised by tensor.py, under the names the spec gives
them: invalidDType models the ValueError raised by the dtype checks at
construction, typeMismatch the failed same-variant assertions in concat and
where, preconditionViolation the failed bit width assertion in
QTensor.matmul, typeError a Python TypeError (a constructor called with
required arguments missing, or an ordered comparison of an array with None),
and indexError indexing into an empty list. -/
inductive Err
  | invalidDType
  | typeMismatch
  | preconditionViolation
  | typeError
  | indexError
  deriving DecidableEq

/-- Elementwise unary operation on an ndarray (dtype and shape are kept, as
for the NumPy elementwise kernels on a float32 array). -/
def npMap (f : ℚ → ℚ) (a : NPArr) : NPArr := ⟨a.dtype, a.shape, a.data.map f⟩

/-- ndarray.astype: the dtype tag changes; the value change of a NumPy cast
is idealized as the identity (the code only casts exact values). -/
def npAstype (d : DType) (a : NPArr) : NPArr := ⟨d, a.shape, a.data⟩

/-- An array holding a single element, as NumPy broadcasting treats it. -/
def isScalarArr (a : NPArr) : Bool := a.data.length == 1

/-- Elementwise binary operation with NumPy broadcasting, modelled for the
cases this code base reaches: a size-one operand broadcasts against the
other operand, and equal shapes combine pointwise. -/
def npBop (f : ℚ → ℚ → ℚ) (a b : NPArr) : NPArr :=
  if isScalarArr b then ⟨a.dtype, a.shape, a.data.map (fun x => f x (b.data.getD 0 0))⟩
  else if isScalarArr a then ⟨a.dtype, b.shape, b.data.map (fun y => f (a.data.getD 0 0) y)⟩
  else if a.shape = b.shape then ⟨a.dtype, a.shape, List.zipWith f a.data b.data⟩
  else ⟨a.dtype, [], []⟩

/-- Row-major flat position of a multi-index. -/
def flattenIdx (shape idx : List Nat) : Nat :=
  (shape.zip idx).foldl (fun acc p => acc * p.1 + p.2) 0

/-- Multi-index of a row-major flat position. -/
def unflattenIdx : List Nat → Nat → List Nat
  | [], _ => []
  | _ :: rest, k => (k / rest.prod) :: unflattenIdx rest (k % rest.prod)

/-- Model of numpy.broadcast_to for equal-rank shapes (the only case the
expand method can reach, because its elementwise shape comparison already
requires equal ranks): it succeeds when every axis either matches or has
current extent 1, and repeats the data of the size-1 axes. -/
def npBroadcastTo (a : NPArr) (sh : List Nat) : Option NPArr :=
  if a.shape.length = sh.length ∧ ∀ p ∈ a.shape.zip sh, p.1 = p.2 ∨ p.1 = 1 then
    some ⟨a.dtype, sh, (List.range sh.prod).map (fun k =>
      a.data.getD (flattenIdx a.shape
        (List.zipWith (fun c j => if c = 1 then 0 else j) a.shape (unflattenIdx sh k))) 0)⟩
  else none

/-- Model of ndarray.transpose with an explicit axes permutation: new axis p
takes its extent and its coordinate from old axis axes[p]. -/
def npTranspose (axes : List Nat) (a : NPArr) : NPArr :=
  let nshape := axes.map (fun p => a.shape.getD p 0)
  ⟨a.dtype, nshape, (List.range nshape.prod).map (fun k =>
    let j := unflattenIdx nshape k
    let old := (List.range a.shape.length).map (fun q =>
      match axes.findIdx? (fun p => p == q) with
      | some p => j.getD p 0
      | none => 0)
    a.data.getD (flattenIdx a.shape old) 0)⟩

/-- Model of ndarray.reshape: the row-major data is kept and only the shape
changes (the element-count validation of the external kernel is not modelled;
the methods below only propagate metadata through it). -/
def npReshape (a : NPArr) (sh : List Nat) : NPArr := ⟨a.dtype, sh, a.data⟩

/-- Model of numpy.matmul for two 2-d arrays. -/
def npMatmul (a b : NPArr) : NPArr :=
  match a.shape, b.shape with
  | [m, k], [_, n] =>
    ⟨a.dtype, [m, n], (List.range (m * n)).map (fun idx =>
      (List.range k).foldl (fun acc l =>
        acc + a.data.getD (idx / n * k + l) 0 * b.data.getD (l * n + idx % n) 0) 0)⟩
  | _, _ => ⟨a.dtype, [], []⟩

/-- Model of numpy.concatenate along an axis: for each index of the axes
before the concatenation axis, the corresponding blocks of the inputs are
laid out one input after the other; the result takes the first input's dtype
and its shape with the extents along the axis summed. -/
def npConcat (axis : Nat) (arrs : List NPArr) : NPArr :=
  match arrs with
  | [] => ⟨.float64, [], []⟩
  | a0 :: _ =>
    let inner := (a0.shape.drop (axis + 1)).prod
    let nshape := a0.shape.set axis (arrs.map (fun a => a.shape.getD axis 0)).sum
    ⟨a0.dtype, nshape,
      ((List.range (a0.shape.take axis).prod).map (fun o =>
        (arrs.map (fun a =>
          (a.data.drop (o * (a.shape.getD axis 0 * inner))).take
            (a.shape.getD axis 0 * inner))).flatten)).flatten⟩

/-- Model of numpy.where for same-shape operands: picks from a where the
condition entry is nonzero and from b otherwise. -/
def npWhere (c a b : NPArr) : NPArr :=
  ⟨a.dtype, a.shape, List.zipWith3 (fun ci x y => if ci = 0 then y else x) c.data a.data b.data⟩

/-- The integer entries of an array, as natural numbers (used where the code
reads an index tensor as a shape). -/
def natsOf (a : NPArr) : List Nat := a.data.map (fun q => q.num.toNat)

/-- A scalar int64 array. -/
def npScalarI (n : ℤ) : NPArr := ⟨.int64, [], [(n : ℚ)]⟩

/-- Embedding of ITensor: an index tensor wrapping an array, no checks. -/
structure ITensor where
  data : NPArr
  deriving DecidableEq

/-- Embedding of FTensor as a plain record; the checked constructor
mkFTensor below models FTensor.__init__ together with its dtype check. -/
structure FTensor where
  data : NPArr
  deriving DecidableEq

/-- Embedding of QTensor as a plain record; the checked constructor
mkQTensor below models QTensor.__init__ together with its dtype checks. -/
structure QTensor where
  data : NPArr
  bit_width : Nat
  scale : ℚ
  zero_point : Option NPArr
  deriving DecidableEq

/-- FTensor.__init__: raises ValueError unless the element type is float32. -/
def mkFTensor (data : NPArr) : Except Err FTensor :=
  if data.dtype = .float32 then .ok ⟨data⟩ else .error .invalidDType

/-- Whether a present zero point fails the int64 dtype check of
QTensor.__init__. -/
def zpNotInt64 : Option NPArr → Bool
  | none => false
  | some z => decide (z.dtype ≠ DType.int64)

/-- QTensor.__init__: raises ValueError unless the data is int64 and, when
present, the zero point is int64 too; it stores data.astype(int64). -/
def mkQTensor (data : NPArr) (bit_width : Nat) (scale : ℚ)
    (zero_point : Option NPArr) : Except Err QTensor :=
  if data.dtype ≠ .int64 then .error .invalidDType
  else if zpNotInt64 zero_point then .error .invalidDType
  else .ok ⟨npAstype .int64 data, bit_width, scale, zero_point⟩

/-- The three variants of the Union type Tensor. -/
inductive Variant
  | idx
  | flt
  | qnt
  deriving DecidableEq

/-- The Union[ITensor, FTensor, QTensor] type of tensor.py. -/
inductive Tensor
  | i : ITensor → Tensor
  | f : FTensor → Tensor
  | q : QTensor → Tensor
  deriving DecidableEq

/-- The runtime class of a tensor, as __class__ comparisons observe it. -/
def Tensor.variant : Tensor → Variant
  | .i _ => .idx
  | .f _ => .flt
  | .q _ => .qnt

/-- The underlying data array of a tensor of any variant. -/
def Tensor.arr : Tensor → NPArr
  | .i t => t.data
  | .f t => t.data
  | .q t => t.data

/-- Calling x.__class__(arr) with the data array as only argument, as concat
and where do: the ITensor constructor accepts it, the FTensor constructor
runs its dtype check, and the QTensor constructor raises a TypeError because
its required bit_width and scale arguments are missing. -/
def callCtor1 : Variant → NPArr → Except Err Tensor
  | .idx, arr => .ok (.i ⟨arr⟩)
  | .flt, arr => (mkFTensor arr).map .f
  | .qnt, _ => .error .typeError

/-- Embedding of concat from tensor.py: assert all entries have the class of
the first entry, then rebuild via that class from the concatenated arrays.
An empty list raises when x_list[0] is read. -/
def concat (x_list : List Tensor) (axis : Nat) : Except Err Tensor :=
  match x_list with
  | [] => .error .indexError
  | x0 :: rest =>
    if (x0 :: rest).all (fun x => x.variant == x0.variant) then
      callCtor1 x0.variant (npConcat axis ((x0 :: rest).map Tensor.arr))
    else .error .typeMismatch

/-- Embedding of the function named where in tensor.py (where is reserved in
Lean): assert both operands have the same class, then rebuild via that class
from the elementwise selection. -/
def whereT (condition : ITensor) (a b : Tensor) : Except Err Tensor :=
  if a.variant = b.variant then callCtor1 a.variant (npWhere condition.data a.arr b.arr)
  else .error .typeMismatch

/-- Embedding of tensor_min_max: the observed minimum and maximum of the
data, each extended to include 0; none models the exception NumPy raises on
an empty array. -/
def tensor_min_max (a : NPArr) : Option (ℚ × ℚ) :=
  match a.data.min?, a.data.max? with
  | some mn, some mx => some (min mn 0, max mx 0)
  | _, _ => none

/-- Embedding of FTensor.__neg__. -/
def FTensor.neg (t : FTensor) : FTensor := ⟨npMap (fun x => -x) t.data⟩

/-- Embedding of FTensor.exp, which delegates to numpy.exp; the external
elementwise exponential kernel is taken as the parameter fexp. -/
def FTensor.exp (fexp : ℚ → ℚ) (t : FTensor) : FTensor := ⟨npMap fexp t.data⟩

/-- Embedding of adding a plain Python float to an FTensor, as
FTensor.__add__ (reached through __radd__ for float + tensor) does. -/
def FTensor.addConst (t : FTensor) (c : ℚ) : FTensor := ⟨npMap (fun x => x + c) t.data⟩

/-- Embedding of FTensor.inv. -/
def FTensor.inv (t : FTensor) : FTensor := ⟨npMap (fun x => 1 / x) t.data⟩

/-- Embedding of FTensor.expand: every axis where the requested extent is 1
but the current extent is larger keeps the current extent, then the data is
broadcast to the adjusted shape. -/
def FTensor.expand (t : FTensor) (shape : ITensor) : Option FTensor :=
  let curr := t.data.shape
  let req := natsOf shape.data
  let adjusted := List.zipWith (fun n c => if n < c ∧ n = 1 then c else n) req curr
  (npBroadcastTo t.data adjusted).map (fun arr => ⟨arr⟩)

/-- Modelled from the spec: the function quantize of
numpy_quant/numpy_quantization.py is imported by tensor.py but its source is
not under src/.  Per QuantizationMath in the spec it computes
round(data / scale) + zero_point, with an absent zero_point defaulting to 0,
and clamps to the signed bit_width range, producing an int64 array. -/
def quantize (data : NPArr) (bit_width : Nat) (scale : ℚ)
    (zero_point : Option NPArr) : NPArr :=
  let r := npMap (fun x => ((round (x / scale) : ℤ) : ℚ)) data
  let shifted := match zero_point with
    | none => r
    | some z => npBop (fun x zv => x + zv) r z
  npAstype .int64
    (npMap (fun x => max (-((2:ℚ) ^ (bit_width - 1))) (min ((2:ℚ) ^ (bit_width - 1) - 1) x))
      shifted)

/-- Subtracting an optional zero point from integer data (absent means 0). -/
def subZeroPoint (d : NPArr) (zp : Option NPArr) : NPArr :=
  match zp with
  | none => d
  | some z => npBop (fun x zv => x - zv) d z

/-- Modelled from the spec: the function q_matmul of
numpy_quant/numpy_quantization.py is imported by tensor.py but its source is
not under src/.  Per IntegerMatmul in the spec it subtracts the zero points,
multiplies and accumulates in the integer domain, and assigns
result_scale = a_scale * b_scale and result_zero_point = 0. -/
def q_matmul (aData : NPArr) (aScale : ℚ) (aZp : Option NPArr)
    (bData : NPArr) (bScale : ℚ) (bZp : Option NPArr) : NPArr × ℚ × Option NPArr :=
  (npMatmul (subZeroPoint aData aZp) (subZeroPoint bData bZp),
    aScale * bScale, some (npScalarI 0))

/-- Embedding of QTensor.reshape: only the shape of the data changes; the
quantization parameters are passed through. -/
def QTensor.reshape (t : QTensor) (shape : ITensor) : QTensor :=
  ⟨npReshape t.data (natsOf shape.data), t.bit_width, t.scale, t.zero_point⟩

/-- Embedding of QTensor.transpose with explicit axes; the zero point is
passed through unchanged. -/
def QTensor.transpose (t : QTensor) (axes : List Nat) : QTensor :=
  ⟨npTranspose axes t.data, t.bit_width, t.scale, t.zero_point⟩

/-- Embedding of QTensor.__add__ for a QTensor right operand: the raw arrays
are added and the left operand's quantization parameters are kept. -/
def QTensor.add (t other : QTensor) : QTensor :=
  ⟨npBop (fun x y => x + y) t.data other.data, t.bit_width, t.scale, t.zero_point⟩

/-- Embedding of QTensor.dequantize, branching on zero point presence:
(data - zero_point) * scale, or data * scale without a zero point, cast to
float32. -/
def QTensor.dequantize (t : QTensor) : FTensor :=
  match t.zero_point with
  | none => ⟨npAstype .float32 (npMap (fun x => x * t.scale) t.data)⟩
  | some z =>
    ⟨npAstype .float32 (npMap (fun x => x * t.scale) (npBop (fun x zv => x - zv) t.data z))⟩

/-- Embedding of QTensor.relu.  With a present zero point, entries below it
are raised to it by the masked assignment.  With an absent zero point the
ordered comparison relu_data < None raises a TypeError in Python. -/
def QTensor.relu (t : QTensor) : Except Err QTensor :=
  match t.zero_point with
  | none => .error .typeError
  | some z =>
    .ok ⟨npBop (fun x zv => if x < zv then zv else x) t.data z,
      t.bit_width, t.scale, some z⟩

/-- Embedding of QTensor.matmul: asserts equal bit widths, delegates to
q_matmul, and allocates 4 times the input bit width for the result. -/
def QTensor.matmul (t other : QTensor) : Except Err QTensor :=
  if t.bit_width = other.bit_width then
    let r := q_matmul t.data t.scale t.zero_point other.data other.scale other.zero_point
    .ok ⟨r.1, 4 * t.bit_width, r.2.1, r.2.2⟩
  else .error .preconditionViolation

/-- Embedding of QTensor.sigmoid: dequantize, compute (1 + exp(-x))⁻¹ with
the FTensor operations, and requantize with the receiver's own bit width,
scale and zero point. -/
def QTensor.sigmoid (fexp : ℚ → ℚ) (t : QTensor) : QTensor :=
  let dequant := t.dequantize
  let activations := (((dequant.neg).exp fexp).addConst 1).inv
  ⟨quantize activations.data t.bit_width t.scale t.zero_point,
    t.bit_width, t.scale, t.zero_point⟩

/-- Concrete asymmetric quantized tensor used by the witnesses. -/
def wQa : QTensor := ⟨⟨.int64, [2, 2], [1, 2, 3, 4]⟩, 8, 2, some (npScalarI 1)⟩

/-- Concrete asymmetric quantized tensor used by the witnesses. -/
def wQb : QTensor := ⟨⟨.int64, [2, 2], [5, 6, 7, 8]⟩, 8, 3, some (npScalarI 2)⟩

/-- Concrete symmetric quantized tensor (absent zero point, different bit
width) used by the witnesses. -/
def wQc : QTensor := ⟨⟨.int64, [2, 2], [-3, 1, 1, 1]⟩, 4, 2, none⟩

/-- Concrete float tensor used by the witnesses. -/
def wFe : FTensor := ⟨⟨.float32, [5], [1, 2, 3, 4, 5]⟩⟩

/-- Concrete index tensor holding the requested shape [1], used by the
expand witness. -/
def wSe : ITensor := ⟨⟨.int64, [1], [1]⟩⟩

/-- Concrete index tensor used by the concat mismatch witness. -/
def wIe : ITensor := ⟨⟨.int64, [2], [1, 2]⟩⟩

/-- Concrete float tensor of shape (2,3) for the concat scenario. -/
def wF23 : FTensor := ⟨⟨.float32, [2, 3], [1, 2, 3, 4, 5, 6]⟩⟩

/-- Concrete float tensor of shape (2,2) for the concat scenario. -/
def wF22 : FTensor := ⟨⟨.float32, [2, 2], [7, 8, 9, 10]⟩⟩

/-- Concrete non-float32 array used by the construction witness. -/
def wDbad : NPArr := ⟨.float64, [1], [1]⟩

/-- Concrete float32 array used by the construction witness. -/
def wDf : NPArr := ⟨.float32, [1], [1]⟩

/-- Concrete int64 array used by the construction witness. -/
def wDi : NPArr := ⟨.int64, [1], [1]⟩

/-- Concrete float32 scalar array used as an ill-typed zero point by the
construction witness. -/
def wZbad : NPArr := ⟨.float32, [], [0]⟩

/-- Concrete all-positive float array used by the min-max witness. -/
def wPos : NPArr := ⟨.float32, [3], [3, 7, 5]⟩

/-- Composing two elementwise operations composes the functions. -/
theorem npMap_comp (f g : ℚ → ℚ) (a : NPArr) :
    npMap g (npMap f a) = npMap (fun x => g (f x)) a := by
  simp [npMap, List.map_map, Function.comp]

/-- C1: QTensor.matmul requires equal bit widths (a violation is signaled as
the precondition error), and on matching bit widths it returns the integer
matrix product of the zero-point-corrected arrays with bit_width 4 times the
input bit width, scale equal to the product of the scales, and zero_point
equal to the scalar int64 array 0. -/
theorem c1_matmul_contract (a b : QTensor) :
    (a.bit_width = b.bit_width →
      a.matmul b = .ok ⟨npMatmul (subZeroPoint a.data a.zero_point)
          (subZeroPoint b.data b.zero_point),
        4 * a.bit_width, a.scale * b.scale, some (npScalarI 0)⟩) ∧
    (a.bit_width ≠ b.bit_width → a.matmul b = .error .preconditionViolation) := by
  constructor
  · intro h
    simp [QTensor.matmul, h, q_matmul]
  · intro h
    simp [QTensor.matmul, h]

/-- Witness for c1_matmul_contract at concrete tensors: wQa and wQb share
bit width 8, wQc has bit width 4. -/
theorem c1_matmul_contract_witness :
    wQa.matmul wQb = .ok ⟨npMatmul (subZeroPoint wQa.data wQa.zero_point)
        (subZeroPoint wQb.data wQb.zero_point),
      4 * wQa.bit_width, wQa.scale * wQb.scale, some (npScalarI 0)⟩ ∧
    wQa.matmul wQc = .error .preconditionViolation :=
  ⟨(c1_matmul_contract wQa wQb).1 rfl, (c1_matmul_contract wQa wQc).2 (by decide)⟩

/-- C2: QTensor.sigmoid is the composition of dequantizing, applying the
float-domain sigmoid x maps to 1/(1 + exp(-x)) elementwise, and quantizing
with the receiver's own bit width, scale and zero point; hence the result
shares all three quantization parameters with the input. -/
theorem c2_sigmoid_composition (fexp : ℚ → ℚ) (t : QTensor) :
    (t.sigmoid fexp).bit_width = t.bit_width ∧
    (t.sigmoid fexp).scale = t.scale ∧
    (t.sigmoid fexp).zero_point = t.zero_point ∧
    (t.sigmoid fexp).data =
      quantize (npMap (fun x => 1 / (1 + fexp (-x))) t.dequantize.data)
        t.bit_width t.scale t.zero_point := by
  refine ⟨rfl, rfl, rfl, ?_⟩
  have h1 : (((t.dequantize.neg).exp fexp).addConst 1).inv.data
      = npMap (fun x => 1 / (1 + fexp (-x))) t.dequantize.data := by
    simp only [FTensor.neg, FTensor.exp, FTensor.addConst, FTensor.inv, npMap_comp]
    congr 1
    funext x
    rw [add_comm]
  show quantize (((t.dequantize.neg).exp fexp).addConst 1).inv.data
      t.bit_width t.scale t.zero_point = _
  rw [h1]

/-- C3 counterexample: on a symmetric quantized tensor (absent zero point)
relu does not clamp at the implied zero 0; the comparison of the int64 data
with None raises a TypeError, so no tensor is returned at all. -/
theorem c3_relu_symmetric_counterexample :
    QTensor.relu ⟨⟨.int64, [2], [-3, 5]⟩, 8, 2, none⟩ = .error .typeError ∧
    QTensor.relu ⟨⟨.int64, [2], [-3, 5]⟩, 8, 2, none⟩ ≠
      .ok ⟨⟨.int64, [2], [0, 5]⟩, 8, 2, none⟩ :=
  ⟨rfl, fun h => Except.noConfusion h⟩

/-- C3 amended: on a quantized tensor whose zero point is present (a scalar,
as the quantization pipeline produces it), relu replaces every stored
element below the zero point by the zero point, leaves the rest unchanged,
and keeps bit width, scale and zero point; with an absent zero point the
operation raises instead of clamping at the implied 0. -/
theorem c3_relu_clamps_at_zero_point (t : QTensor) (z : NPArr)
    (hz : t.zero_point = some z) (hs : isScalarArr z = true) :
    t.relu = .ok ⟨⟨t.data.dtype, t.data.shape,
        t.data.data.map (fun x => if x < z.data.getD 0 0 then z.data.getD 0 0 else x)⟩,
      t.bit_width, t.scale, t.zero_point⟩ := by
  obtain ⟨d, bw, s, zp⟩ := t
  simp only at hz
  subst hz
  simp [QTensor.relu, npBop, hs]

/-- Witness for c3_relu_clamps_at_zero_point at the concrete tensor wQa,
whose zero point is the scalar int64 array 1. -/
theorem c3_relu_clamps_witness :
    wQa.relu = .ok ⟨⟨wQa.data.dtype, wQa.data.shape,
        wQa.data.data.map (fun x =>
          if x < (npScalarI 1).data.getD 0 0 then (npScalarI 1).data.getD 0 0 else x)⟩,
      wQa.bit_width, wQa.scale, wQa.zero_point⟩ :=
  c3_relu_clamps_at_zero_point wQa (npScalarI 1) rfl (by decide)

/-- C4: dequantize returns (stored - zero_point) * scale cast to float32; an
absent zero point behaves exactly as the zero point 0, so the symmetric
branch returns stored * scale. -/
theorem c4_dequantize_formula (t : QTensor) :
    (t.zero_point = none →
      t.dequantize.data = npAstype .float32 (npMap (fun x => (x - 0) * t.scale) t.data) ∧
      t.dequantize.data.dtype = .float32) ∧
    (∀ z, t.zero_point = some z → isScalarArr z = true →
      t.dequantize.data =
        npAstype .float32 (npMap (fun x => (x - z.data.getD 0 0) * t.scale) t.data) ∧
      t.dequantize.data.dtype = .float32) := by
  obtain ⟨d, bw, s, zp⟩ := t
  constructor
  · intro h
    simp only at h
    subst h
    refine ⟨?_, rfl⟩
    simp only [QTensor.dequantize]
    congr 1
    simp [npMap]
  · intro z hz hs
    simp only at hz
    subst hz
    refine ⟨?_, rfl⟩
    simp only [QTensor.dequantize, npBop, hs, if_pos]
    simp [npMap, npAstype, List.map_map, Function.comp]

/-- Witness for c4_dequantize_formula at the concrete tensors wQc (absent
zero point) and wQa (scalar zero point 1). -/
theorem c4_dequantize_witness :
    (wQc.dequantize.data =
        npAstype .float32 (npMap (fun x => (x - 0) * wQc.scale) wQc.data) ∧
      wQc.dequantize.data.dtype = .float32) ∧
    (wQa.dequantize.data =
        npAstype .float32 (npMap (fun x => (x - (npScalarI 1).data.getD 0 0) * wQa.scale) wQa.data) ∧
      wQa.dequantize.data.dtype = .float32) :=
  ⟨(c4_dequantize_formula wQc).1 rfl,
    (c4_dequantize_formula wQa).2 (npScalarI 1) rfl (by decide)⟩

/-- C5: tensor_min_max returns exactly (min of the data and 0, max of the
data and 0), so the observed range always contains 0, also for all-positive
or all-negative data. -/
theorem c5_tensor_min_max_includes_zero (a : NPArr) (mn mx : ℚ)
    (hmn : a.data.min? = some mn) (hmx : a.data.max? = some mx) :
    tensor_min_max a = some (min mn 0, max mx 0) ∧
    min mn 0 ≤ 0 ∧ 0 ≤ max mx 0 ∧ min mn 0 ≤ max mx 0 :=
  ⟨by simp [tensor_min_max, hmn, hmx], min_le_right mn 0, le_max_right mx 0,
    le_trans (min_le_right mn 0) (le_max_right mx 0)⟩

/-- Witness for c5_tensor_min_max_includes_zero at the all-positive concrete
array wPos with data minimum 3 and maximum 7. -/
theorem c5_tensor_min_max_witness :
    tensor_min_max wPos = some (min 3 0, max 7 0) ∧
    min (3:ℚ) 0 ≤ 0 ∧ (0:ℚ) ≤ max 7 0 ∧ min (3:ℚ) 0 ≤ max 7 0 :=
  c5_tensor_min_max_includes_zero wPos 3 7 (by decide) (by decide)

/-- On positive compatible extents the ONNX shape adjustment of expand picks
the larger of the requested and the current extent. -/
theorem adjusted_shape_eq_max (req curr : List Nat)
    (h : ∀ p ∈ req.zip curr, (1 ≤ p.1 ∧ 1 ≤ p.2) ∧ (p.1 = p.2 ∨ p.1 = 1 ∨ p.2 = 1)) :
    List.zipWith (fun n c => if n < c ∧ n = 1 then c else n) req curr
      = List.zipWith max req curr := by
  induction req generalizing curr with
  | nil => simp
  | cons n ns ih =>
    cases curr with
    | nil => simp
    | cons c cs =>
      have hh := h (n, c) (by simp)
      have ht : ∀ p ∈ ns.zip cs, (1 ≤ p.1 ∧ 1 ≤ p.2) ∧ (p.1 = p.2 ∨ p.1 = 1 ∨ p.2 = 1) :=
        fun p hp => h p (by simp [hp])
      simp only [List.zipWith_cons_cons]
      rw [ih cs ht]
      obtain ⟨⟨h1, h2⟩, h3⟩ := hh
      congr 1
      split <;> omega

/-- The current shape is broadcast-compatible with the adjusted shape of
expand, axis by axis. -/
theorem current_compat_with_max (req curr : List Nat)
    (h : ∀ p ∈ req.zip curr, (1 ≤ p.1 ∧ 1 ≤ p.2) ∧ (p.1 = p.2 ∨ p.1 = 1 ∨ p.2 = 1)) :
    ∀ p ∈ curr.zip (List.zipWith max req curr), p.1 = p.2 ∨ p.1 = 1 := by
  induction req generalizing curr with
  | nil =>
    intro p hp
    cases curr <;> simp at hp
  | cons n ns ih =>
    intro p hp
    cases curr with
    | nil => simp at hp
    | cons c cs =>
      simp only [List.zipWith_cons_cons, List.zip_cons_cons, List.mem_cons] at hp
      rcases hp with rfl | hp
      · obtain ⟨⟨h1, h2⟩, h3⟩ := h (n, c) (by simp)
        simp only
        omega
      · exact ih cs (fun p2 hp2 => h p2 (by simp [hp2])) p hp

/-- C6: FTensor.expand follows the ONNX expand contract: with an equal-rank
requested shape of positive, otherwise broadcast-compatible extents, it does
not error, and every axis where the requested extent is 1 but the current
extent larger keeps the current extent - the result shape is the axiswise
maximum, so the requested shape only broadens and never narrows. -/
theorem c6_expand_keeps_larger_extent (t : FTensor) (s : ITensor)
    (hlen : (natsOf s.data).length = t.data.shape.length)
    (h : ∀ p ∈ (natsOf s.data).zip t.data.shape,
      (1 ≤ p.1 ∧ 1 ≤ p.2) ∧ (p.1 = p.2 ∨ p.1 = 1 ∨ p.2 = 1)) :
    (t.expand s).map (fun r => r.data.shape)
      = some (List.zipWith max (natsOf s.data) t.data.shape) := by
  have hguard : t.data.shape.length
        = (List.zipWith max (natsOf s.data) t.data.shape).length ∧
      ∀ p ∈ t.data.shape.zip (List.zipWith max (natsOf s.data) t.data.shape),
        p.1 = p.2 ∨ p.1 = 1 := by
    refine ⟨?_, current_compat_with_max _ _ h⟩
    rw [List.length_zipWith]
    omega
  simp only [FTensor.expand]
  rw [adjusted_shape_eq_max _ _ h]
  rw [npBroadcastTo, if_pos hguard]
  rfl

/-- Witness for c6_expand_keeps_larger_extent: the concrete float tensor wFe
of shape [5] expanded to the requested shape [1] keeps extent 5. -/
theorem c6_expand_witness :
    ((wFe.expand wSe).map (fun r => r.data.shape))
      = some (List.zipWith max (natsOf wSe.data) wFe.data.shape) :=
  c6_expand_keeps_larger_extent wFe wSe (by decide) (by decide)

/-- C7 counterexample: concatenating two QuantizedTensors does not return a
tensor of that variant; rebuilding through the QTensor constructor with the
data array alone raises a TypeError, so the call fails. -/
theorem c7_concat_quantized_counterexample :
    concat [Tensor.q ⟨⟨.int64, [1], [1]⟩, 8, 2, none⟩,
        Tensor.q ⟨⟨.int64, [1], [2]⟩, 8, 2, none⟩] 0 = .error .typeError ∧
    concat [Tensor.q ⟨⟨.int64, [1], [1]⟩, 8, 2, none⟩,
        Tensor.q ⟨⟨.int64, [1], [2]⟩, 8, 2, none⟩] 0 ≠
      .ok (.q ⟨⟨.int64, [2], [1, 2]⟩, 8, 2, none⟩) :=
  ⟨rfl, fun h => Except.noConfusion h⟩

/-- C7 amended: concat fails with the type-mismatch error when the tensors
are not all the same variant; for a non-empty list of FloatTensors (of the
stored float32 dtype) or of IndexTensors it returns a tensor of that variant
holding the concatenation of the arrays along the axis, and in particular
the (2,3) and (2,2) scenario along axis 1 yields shape (2,5) with the values
in original order; a list of QuantizedTensors instead fails, since the
variant's constructor requires more than the data array. -/
theorem c7_concat_contract :
    (∀ (x0 : Tensor) (xs : List Tensor) (axis : Nat),
      (∃ y ∈ x0 :: xs, y.variant ≠ x0.variant) →
        concat (x0 :: xs) axis = .error .typeMismatch) ∧
    (∀ (f0 : FTensor) (fs : List FTensor) (axis : Nat), f0.data.dtype = .float32 →
      concat ((f0 :: fs).map Tensor.f) axis
        = .ok (.f ⟨npConcat axis ((f0 :: fs).map (fun g => g.data))⟩)) ∧
    (∀ (i0 : ITensor) (il : List ITensor) (axis : Nat),
      concat ((i0 :: il).map Tensor.i) axis
        = .ok (.i ⟨npConcat axis ((i0 :: il).map (fun g => g.data))⟩)) ∧
    concat [Tensor.f wF23, Tensor.f wF22] 1
      = .ok (.f ⟨⟨.float32, [2, 5], [1, 2, 3, 7, 8, 4, 5, 6, 9, 10]⟩⟩) := by
  refine ⟨?_, ?_, ?_, ?_⟩
  · rintro x0 xs axis ⟨y, hy, hne⟩
    simp only [concat]
    rw [if_neg]
    intro hall
    rw [List.all_eq_true] at hall
    exact hne (by simpa using hall y hy)
  · intro f0 fs axis hdt
    have hall : (Tensor.f f0 :: fs.map Tensor.f).all
        (fun x => x.variant == (Tensor.f f0).variant) = true := by
      rw [List.all_eq_true]
      intro x hx
      rw [List.mem_cons] at hx
      rcases hx with rfl | hx
      · rfl
      · rw [List.mem_map] at hx
        obtain ⟨g, _, rfl⟩ := hx
        rfl
    simp only [List.map_cons, concat]
    rw [if_pos hall]
    have harr : (Tensor.f f0).arr :: (fs.map Tensor.f).map Tensor.arr
        = f0.data :: fs.map (fun g => g.data) := by
      simp [Tensor.arr, List.map_map, Function.comp]
    rw [harr]
    have hdt2 : (npConcat axis (f0.data :: fs.map (fun g => g.data))).dtype = .float32 := by
      rw [npConcat]
      exact hdt
    simp [callCtor1, Tensor.variant, mkFTensor, hdt2, Except.map]
  · intro i0 il axis
    have hall : (Tensor.i i0 :: il.map Tensor.i).all
        (fun x => x.variant == (Tensor.i i0).variant) = true := by
      rw [List.all_eq_true]
      intro x hx
      rw [List.mem_cons] at hx
      rcases hx with rfl | hx
      · rfl
      · rw [List.mem_map] at hx
        obtain ⟨g, _, rfl⟩ := hx
        rfl
    simp only [List.map_cons, concat]
    rw [if_pos hall]
    have harr : (Tensor.i i0).arr :: (il.map Tensor.i).map Tensor.arr
        = i0.data :: il.map (fun g => g.data) := by
      simp [Tensor.arr, List.map_map, Function.comp]
    rw [harr]
    rfl
  · rfl

/-- Witness for c7_concat_contract: a mixed float and index list fails with
the type mismatch error, and a two-element float list concatenates. -/
theorem c7_concat_contract_witness :
    concat [Tensor.f wF23, Tensor.i wIe] 0 = .error .typeMismatch ∧
    concat ([wF23, wF22].map Tensor.f) 1
      = .ok (.f ⟨npConcat 1 ([wF23, wF22].map (fun g => g.data))⟩) :=
  ⟨c7_concat_contract.1 (Tensor.f wF23) [Tensor.i wIe] 0
      ⟨Tensor.i wIe, by simp, by decide⟩,
    c7_concat_contract.2.1 wF23 [wF22] 1 rfl⟩

/-- C8: FTensor construction succeeds exactly on float32 storage and QTensor
construction exactly on int64 storage with an absent or int64 zero point;
failures raise the invalid-dtype error and successful construction stores
data with the required dtype. -/
theorem c8_construction_dtype_checks (d : NPArr) (bw : Nat) (s : ℚ) :
    (d.dtype ≠ .float32 → mkFTensor d = .error .invalidDType) ∧
    (d.dtype = .float32 → mkFTensor d = .ok ⟨d⟩) ∧
    (∀ zp, d.dtype ≠ .int64 → mkQTensor d bw s zp = .error .invalidDType) ∧
    (∀ z, z.dtype ≠ .int64 → mkQTensor d bw s (some z) = .error .invalidDType) ∧
    (∀ zp, d.dtype = .int64 → zpNotInt64 zp = false →
      mkQTensor d bw s zp = .ok ⟨npAstype .int64 d, bw, s, zp⟩ ∧
      (npAstype .int64 d).dtype = .int64) := by
  refine ⟨?_, ?_, ?_, ?_, ?_⟩
  · intro h
    simp [mkFTensor, h]
  · intro h
    simp [mkFTensor, h]
  · intro zp h
    simp [mkQTensor, h]
  · intro z h
    by_cases hd : d.dtype = .int64
    · simp [mkQTensor, hd, zpNotInt64, h]
    · simp [mkQTensor, hd]
  · intro zp h1 h2
    exact ⟨by simp [mkQTensor, h1, h2], rfl⟩

/-- Witness for c8_construction_dtype_checks at concrete arrays: a float64
array fails FTensor construction, a float32 array succeeds, a float32 data
array and a float32 zero point fail QTensor construction, and int64 data
with an int64 scalar zero point succeeds with int64 storage. -/
theorem c8_construction_witness :
    mkFTensor wDbad = .error .invalidDType ∧
    mkFTensor wDf = .ok ⟨wDf⟩ ∧
    mkQTensor wDf 8 1 none = .error .invalidDType ∧
    mkQTensor wDi 8 1 (some wZbad) = .error .invalidDType ∧
    (mkQTensor wDi 8 1 (some (npScalarI 0))
        = .ok ⟨npAstype .int64 wDi, 8, 1, some (npScalarI 0)⟩ ∧
      (npAstype .int64 wDi).dtype = .int64) :=
  ⟨(c8_construction_dtype_checks wDbad 8 1).1 (by decide),
    (c8_construction_dtype_checks wDf 8 1).2.1 rfl,
    (c8_construction_dtype_checks wDf 8 1).2.2.1 none (by decide),
    (c8_construction_dtype_checks wDi 8 1).2.2.2.1 wZbad (by decide),
    (c8_construction_dtype_checks wDi 8 1).2.2.2.2 (some (npScalarI 0)) rfl (by decide)⟩

/-- C9: concat of any non-empty list of QuantizedTensors and where on two
QuantizedTensors always fail with a TypeError, because both rebuild the
result by calling the variant's constructor with the data array alone while
the QTensor constructor also requires bit_width and scale; neither can ever
return a QuantizedTensor. -/
theorem c9_concat_where_quantized_always_fail (q0 : QTensor) (qs : List QTensor)
    (axis : Nat) (cond : ITensor) (a b : QTensor) :
    concat ((q0 :: qs).map Tensor.q) axis = .error .typeError ∧
    whereT cond (.q a) (.q b) = .error .typeError := by
  constructor
  · have hall : (Tensor.q q0 :: qs.map Tensor.q).all
        (fun x => x.variant == (Tensor.q q0).variant) = true := by
      rw [List.all_eq_true]
      intro x hx
      rw [List.mem_cons] at hx
      rcases hx with rfl | hx
      · rfl
      · rw [List.mem_map] at hx
        obtain ⟨g, _, rfl⟩ := hx
        rfl
    simp only [List.map_cons, concat]
    rw [if_pos hall]
    rfl
  · rfl

/-- C10: reshape, transpose and addition on a QuantizedTensor return a
tensor whose bit width, scale and zero point are exactly the receiver's (the
left operand's, ignoring the right operand's parameters), and whenever relu
returns a tensor its parameters are the receiver's as well. -/
theorem c10_params_from_receiver (t o : QTensor) (sh : ITensor) (axes : List Nat) :
    ((t.reshape sh).bit_width = t.bit_width ∧ (t.reshape sh).scale = t.scale ∧
      (t.reshape sh).zero_point = t.zero_point) ∧
    ((t.transpose axes).bit_width = t.bit_width ∧ (t.transpose axes).scale = t.scale ∧
      (t.transpose axes).zero_point = t.zero_point) ∧
    ((t.add o).bit_width = t.bit_width ∧ (t.add o).scale = t.scale ∧
      (t.add o).zero_point = t.zero_point) ∧
    (∀ r, t.relu = .ok r →
      r.bit_width = t.bit_width ∧ r.scale = t.scale ∧ r.zero_point = t.zero_point) := by
  refine ⟨⟨rfl, rfl, rfl⟩, ⟨rfl, rfl, rfl⟩, ⟨rfl, rfl, rfl⟩, ?_⟩
  intro r h
  unfold QTensor.relu at h
  cases hz : t.zero_point with
  | none =>
    rw [hz] at h
    exact absurd h (by simp)
  | some z =>
    rw [hz] at h
    injection h with h2
    rw [← h2]
    exact ⟨rfl, rfl, rfl⟩

/-- Witness for c10_params_from_receiver: the relu clause applied to the
concrete tensor wQa, whose relu result is computed by the clamping map. -/
theorem c10_params_witness :
    (QTensor.mk (npBop (fun x zv => if x < zv then zv else x) wQa.data (npScalarI 1))
        wQa.bit_width wQa.scale (some (npScalarI 1))).bit_width = wQa.bit_width ∧
    (QTensor.mk (npBop (fun x zv => if x < zv then zv else x) wQa.data (npScalarI 1))
        wQa.bit_width wQa.scale (some (npScalarI 1))).scale = wQa.scale ∧
    (QTensor.mk (npBop (fun x zv => if x < zv then zv else x) wQa.data (npScalarI 1))
        wQa.bit_width wQa.scale (some (npScalarI 1))).zero_point = wQa.zero_point :=
  (c10_params_from_receiver wQa wQb wSe [1, 0]).2.2.2 _ rfl
